import Mathlib

/-!
# Verification of the nickel source cache (`src/cache.rs`)

Shallow embedding of the source/terms cache of the nickel configuration
language. `FileId`s are modelled as `Nat` arena indices (the `codespan`
file database is append-only, so `files.add` returns the current length).
`HashMap`s are modelled as association lists with overwrite-on-insert.
External collaborators (the filesystem, the parser, the typechecker and
the transformation pass) are modelled as oracle functions bundled in
`FileSystem` and `Extern`; the cache code itself is translated from
`src/cache.rs` line by line. Panics (`panic!`, `unwrap` on an impossible
`None`, `debug_assert!`) are modelled as a dedicated `panicked` outcome
carrying a `PanicMsg` constructor identifying the panic site.
-/

namespace Nickel

/-- `EntryState` from cache.rs: the state of an entry of the term cache.
Derives `Ord` in Rust with `Parsed < Typechecked < Transformed`. -/
inductive EntryState where
  | parsed
  | typechecked
  | transformed
deriving DecidableEq, Repr

/-- The rank realising the derived `Ord` on `EntryState`. -/
def EntryState.rank : EntryState → Nat
  | .parsed => 1
  | .typechecked => 2
  | .transformed => 3

/-- `CacheOp` from cache.rs: result of a cache operation. -/
inductive CacheOp where
  | done
  | cached
deriving DecidableEq, Repr

/-- `CacheError<E>` from cache.rs. -/
inductive CacheError (ε : Type) where
  | error (e : ε)
  | notParsed
deriving DecidableEq, Repr

/-- Identifies the panic sites of cache.rs (and of the library calls it
makes with `unwrap`). -/
inductive PanicMsg where
  /-- `codespan` `files.source(file_id)` with an unknown id. -/
  | filesSourceUnknownId
  /-- the bare `panic!()` in `Cache::typecheck`. -/
  | typecheckUnreachableState
  /-- `expect_err` in `Cache::prepare` on the typecheck step:
  "expected source to be parsed before typechecking". -/
  | prepareTypecheckNotParsed
  /-- `expect_err` in `Cache::prepare` on the transform step:
  "expected source to be parsed before transformations". -/
  | prepareTransformNotParsed
  /-- `panic!("cache::transform_inner(): not a record")`. -/
  | transformInnerNotRecord
  /-- `self.get_owned(file_id).unwrap()` in `resolve`. -/
  | getOwnedUnwrap
  /-- `self.terms.get(..).unwrap()` / `self.terms.remove(..).unwrap()`
  on an entry whose presence was just checked (unreachable). -/
  | termsGetUnwrap
  /-- `debug_assert!(*state == EntryState::Transformed)` in
  `<Cache as ImportResolver>::get`. -/
  | getStateAssertion
deriving DecidableEq, Repr

/-- Outcome of a fallible cache operation: `Ok`, `Err`, or a panic. -/
inductive CResult (ε α : Type) where
  | ok (a : α)
  | fail (e : ε)
  | panicked (m : PanicMsg)
deriving DecidableEq, Repr

/-- `RichTerm` from the `term` module, restricted to the structure
cache.rs inspects: `transform_inner` matches on `Term::Record` and
`Term::RecRecord` (a field map); every other variant is opaque. -/
inductive RichTerm where
  | record (fields : List (String × RichTerm))
  | recRecord (fields : List (String × RichTerm))
  | atom (n : Nat)

/-- Parse errors are opaque to cache.rs. -/
abbrev ParseError := Nat

/-- Typecheck errors are opaque to cache.rs. -/
abbrev TypecheckError := Nat

/-- `RawSpan` positions are opaque to cache.rs. -/
abbrev RawSpan := Nat

/-- The global evaluation environment passed to the typechecker is opaque
to cache.rs. -/
abbrev Environment := Nat

/-- `ImportError` from the `error` module, as constructed by cache.rs:
an IO error (import path, message, import position) or a parse error. -/
inductive ImportError where
  | ioError (path : String) (msg : String) (pos : Option RawSpan)
  | parseError (e : ParseError) (pos : Option RawSpan)
deriving DecidableEq, Repr

/-- The slice of the top-level `Error` sum that `Cache::prepare` can
produce. -/
inductive NError where
  | parseError (e : ParseError)
  | typecheckError (e : TypecheckError)
  | importError (e : ImportError)
deriving DecidableEq, Repr

/-- `ResolvedTerm` from cache.rs. -/
inductive ResolvedTerm where
  | fromFile (term : RichTerm) (path : String)
  | fromCache

/-- `NameIdEntry` from cache.rs: a file id together with the *modified
at* timestamp observed at load (`None` for non-file sources). -/
structure NameIdEntry where
  id : Nat
  timestamp : Option Nat
deriving DecidableEq, Repr

/-! ## Association lists standing in for `HashMap` -/

/-- Lookup in an association list (first binding wins). -/
def lookupA {α β : Type} [DecidableEq α] : List (α × β) → α → Option β
  | [], _ => none
  | (k, v) :: rest, k' => if k' = k then some v else lookupA rest k'

/-- `HashMap::remove`: drop every binding of the key. -/
def eraseA {α β : Type} [DecidableEq α] : List (α × β) → α → List (α × β)
  | [], _ => []
  | (k, v) :: rest, k' => if k' = k then eraseA rest k' else (k, v) :: eraseA rest k'

/-- `HashMap::insert`: overwrite the binding of the key. -/
def insertA {α β : Type} [DecidableEq α] (l : List (α × β)) (k : α) (v : β) :
    List (α × β) :=
  (k, v) :: eraseA l k

/-- `HashMap::contains_key`. -/
def containsA {α β : Type} [DecidableEq α] (l : List (α × β)) (k : α) : Bool :=
  (lookupA l k).isSome

theorem lookupA_eraseA_self {α β : Type} [DecidableEq α] (l : List (α × β)) (k : α) :
    lookupA (eraseA l k) k = none := by
  induction l with
  | nil => rfl
  | cons hd tl ih =>
    obtain ⟨k0, v0⟩ := hd
    by_cases h : k = k0
    · subst h
      simp [eraseA, ih]
    · simp [eraseA, lookupA, h, ih]

theorem lookupA_eraseA_ne {α β : Type} [DecidableEq α] (l : List (α × β)) (k k' : α)
    (h : k' ≠ k) : lookupA (eraseA l k) k' = lookupA l k' := by
  induction l with
  | nil => rfl
  | cons hd tl ih =>
    obtain ⟨k0, v0⟩ := hd
    by_cases h0 : k = k0
    · subst h0
      simp [eraseA, lookupA, h, ih]
    · by_cases h1 : k' = k0 <;> simp [eraseA, lookupA, h0, h1, ih]

theorem lookupA_insertA_self {α β : Type} [DecidableEq α] (l : List (α × β)) (k : α)
    (v : β) : lookupA (insertA l k v) k = some v := by
  simp [insertA, lookupA]

theorem lookupA_insertA_ne {α β : Type} [DecidableEq α] (l : List (α × β)) (k k' : α)
    (v : β) (h : k' ≠ k) : lookupA (insertA l k v) k' = lookupA l k' := by
  simp [insertA, lookupA, h, lookupA_eraseA_ne l k k' h]

/-! ## External collaborators as oracles -/

/-- The filesystem and the standard path operations cache.rs calls,
modelled as pure oracles. `readFile` is `fs::File::open` +
`read_to_string` (the error is the message later shown via `format!`);
`modified` is `fs::metadata(..)?.modified()?`; `canonicalize` is
`Path::canonicalize` (`None` on any IO error, as in `normalize_path`);
`pathPop`/`pathPush` are `PathBuf::pop`/`PathBuf::push`. -/
structure FileSystem where
  readFile : String → Except String String
  modified : String → Except String Nat
  canonicalize : String → Option String
  pathPop : String → String
  pathPush : String → String → String

/-- The parser, the typechecker and the transformation pass, modelled as
oracles. `parseFn` is `parser::grammar::TermParser::parse` on a file id
and its source text; `typeCheckFn` is `typecheck::type_check`;
`transformFn` is `transformations::transform`. (In Rust the latter two
also receive the cache as an import resolver; their effect on the cache
is not modelled — the claims below only concern the cache code's own
mutations.) -/
structure Extern where
  parseFn : Nat → String → Except ParseError RichTerm
  typeCheckFn : RichTerm → Environment → Except TypecheckError Unit
  transformFn : RichTerm → Except ImportError RichTerm

/-! ## The cache -/

/-- `Cache` from cache.rs. `files` is the `codespan` file database
(append-only list of (name, content); a `FileId` is an index);
`file_ids` is the name-id table; `terms` is the term cache. -/
structure Cache where
  files : List (String × String)
  file_ids : List (String × NameIdEntry)
  terms : List (Nat × (RichTerm × EntryState))

/-- `Cache::new`. -/
def Cache.new : Cache := ⟨[], [], []⟩

/-- `normalize_path` from cache.rs. -/
def normalize_path (fs : FileSystem) (path : String) : Option String :=
  fs.canonicalize path

/-- `with_parent` from cache.rs: `parent.unwrap_or_default().pop().push(path)`
and its normalization. -/
def with_parent (fs : FileSystem) (path : String) (parent : Option String) :
    String × Option String :=
  let path_buf := fs.pathPush (fs.pathPop (parent.getD "")) path
  (path_buf, normalize_path fs path_buf)

/-- `Cache::load_file`: read the file and add it to the file database;
do not touch the name-id table. Returns the fresh file id. -/
def Cache.load_file (c : Cache) (fs : FileSystem) (path : String) :
    Except String Nat × Cache :=
  match fs.readFile path with
  | .error e => (.error e, c)
  | .ok buffer =>
      (.ok c.files.length, { c with files := c.files ++ [(path, buffer)] })

/-- `Cache::add_file_normalized`: read the timestamp, load the file, and
overwrite the name-id entry of the (already normalized) path. -/
def Cache.add_file_normalized (c : Cache) (fs : FileSystem) (path : String) :
    Except String Nat × Cache :=
  match fs.modified path with
  | .error e => (.error e, c)
  | .ok timestamp =>
      match c.load_file fs path with
      | (.error e, c₁) => (.error e, c₁)
      | (.ok file_id, c₁) =>
          (.ok file_id,
            { c₁ with
              file_ids := insertA c₁.file_ids path ⟨file_id, some timestamp⟩ })

/-- `Cache::add_file`: normalize the path; on success delegate to
`add_file_normalized`, otherwise just load the file without touching the
name-id table. -/
def Cache.add_file (c : Cache) (fs : FileSystem) (path : String) :
    Except String Nat × Cache :=
  match normalize_path fs path with
  | some p => c.add_file_normalized fs p
  | none => c.load_file fs path

/-- `Cache::add_string`: add the source under the given name with no
timestamp, overwriting any previous binding. -/
def Cache.add_string (c : Cache) (source_name : String) (s : String) :
    Nat × Cache :=
  let id := c.files.length
  (id,
    { c with
      files := c.files ++ [(source_name, s)],
      file_ids := insertA c.file_ids source_name ⟨id, none⟩ })

/-- `Cache::parse`: no-op if the term cache already has the entry;
otherwise run the parser on the stored source and insert the term at
state `Parsed`. (`files.source` panics on an unknown id.) -/
def Cache.parse (c : Cache) (ext : Extern) (file_id : Nat) :
    CResult ParseError CacheOp × Cache :=
  if containsA c.terms file_id then (.ok .cached, c)
  else
    match c.files[file_id]? with
    | none => (.panicked .filesSourceUnknownId, c)
    | some (_, buf) =>
        match ext.parseFn file_id buf with
        | .error e => (.fail e, c)
        | .ok t =>
            (.ok .done, { c with terms := insertA c.terms file_id (t, .parsed) })

/-- `Cache::update_state`: set the state of an existing entry, keeping
its term; return the previous state. -/
def Cache.update_state (c : Cache) (file_id : Nat) (new : EntryState) :
    Option EntryState × Cache :=
  match lookupA c.terms file_id with
  | none => (none, c)
  | some (t, old) =>
      (some old, { c with terms := insertA c.terms file_id (t, new) })

/-- `Cache::entry_state`. -/
def Cache.entry_state (c : Cache) (file_id : Nat) : Option EntryState :=
  (lookupA c.terms file_id).map (fun p => p.2)

/-- `Cache::get_owned`. -/
def Cache.get_owned (c : Cache) (file_id : Nat) : Option RichTerm :=
  (lookupA c.terms file_id).map (fun p => p.1)

/-- `Cache::id_of`. -/
def Cache.id_of (c : Cache) (name : String) : Option Nat :=
  (lookupA c.file_ids name).map (fun entry => entry.id)

/-- `Cache::typecheck`: `Err(NotParsed)` when the entry is missing;
`Cached` when `state > Typechecked` (i.e. `Transformed`); run the
typechecker and advance to `Typechecked` when `state == Parsed`; and the
bare `panic!()` otherwise (i.e. exactly when `state == Typechecked`). -/
def Cache.typecheck (c : Cache) (ext : Extern) (file_id : Nat)
    (global_env : Environment) : CResult (CacheError TypecheckError) CacheOp × Cache :=
  if ¬ containsA c.terms file_id then (.fail .notParsed, c)
  else
    match lookupA c.terms file_id with
    | none => (.panicked .termsGetUnwrap, c)
    | some (t, state) =>
        if EntryState.typechecked.rank < state.rank then (.ok .cached, c)
        else if state = .parsed then
          match ext.typeCheckFn t global_env with
          | .error e => (.fail (.error e), c)
          | .ok _ => (.ok .done, (c.update_state file_id .typechecked).2)
        else (.panicked .typecheckUnreachableState, c)

/-- `Cache::transform`: `Cached` when already `Transformed`; otherwise
*remove* the entry, run the transformation pass, and reinsert the result
at `Transformed` — on an error from the pass the entry stays removed;
`Err(NotParsed)` when there is no entry. -/
def Cache.transform (c : Cache) (ext : Extern) (file_id : Nat) :
    CResult (CacheError ImportError) CacheOp × Cache :=
  match c.entry_state file_id with
  | some .transformed => (.ok .cached, c)
  | some _ =>
      match lookupA c.terms file_id with
      | none => (.panicked .termsGetUnwrap, c)
      | some (t, _) =>
          let c₁ : Cache := { c with terms := eraseA c.terms file_id }
          match ext.transformFn t with
          | .error e => (.fail (.error e), c₁)
          | .ok t₁ =>
              (.ok .done,
                { c₁ with terms := insertA c₁.terms file_id (t₁, .transformed) })
  | none => (.fail .notParsed, c)

/-- The `collect` over the field map in `Cache::transform_inner`:
transform each field, short-circuiting on the first error. -/
def transformFields (ext : Extern) :
    List (String × RichTerm) → Except ImportError (List (String × RichTerm))
  | [] => .ok []
  | (name, t) :: rest =>
      match ext.transformFn t with
      | .error e => .error e
      | .ok t₁ =>
          match transformFields ext rest with
          | .error e => .error e
          | .ok rest₁ => .ok ((name, t₁) :: rest₁)

/-- `Cache::transform_inner`: like `transform` but transforms only the
fields of a `Record`/`RecRecord` term, panicking on any other term shape
(after the entry was already removed). -/
def Cache.transform_inner (c : Cache) (ext : Extern) (file_id : Nat) :
    CResult (CacheError ImportError) CacheOp × Cache :=
  match c.entry_state file_id with
  | some .transformed => (.ok .cached, c)
  | some _ =>
      match lookupA c.terms file_id with
      | none => (.panicked .termsGetUnwrap, c)
      | some (t, _) =>
          let c₁ : Cache := { c with terms := eraseA c.terms file_id }
          match t with
          | .record fields =>
              match transformFields ext fields with
              | .error e => (.fail (.error e), c₁)
              | .ok fields₁ =>
                  (.ok .done,
                    { c₁ with
                      terms := insertA c₁.terms file_id
                        (.record fields₁, .transformed) })
          | .recRecord fields =>
              match transformFields ext fields with
              | .error e => (.fail (.error e), c₁)
              | .ok fields₁ =>
                  (.ok .done,
                    { c₁ with
                      terms := insertA c₁.terms file_id
                        (.recRecord fields₁, .transformed) })
          | _ => (.panicked .transformInnerNotRecord, c₁)
  | none => (.fail .notParsed, c)

/-- `Cache::prepare`: parse, then typecheck, then transform, mapping a
`NotParsed` from the latter two into a panic via `expect_err`; the
overall result is `Done` iff some stage reported `Done`. -/
def Cache.prepare (c : Cache) (ext : Extern) (file_id : Nat)
    (global_env : Environment) : CResult NError CacheOp × Cache :=
  match c.parse ext file_id with
  | (.fail e, c₁) => (.fail (.parseError e), c₁)
  | (.panicked m, c₁) => (.panicked m, c₁)
  | (.ok parse_res, c₁) =>
      match c₁.typecheck ext file_id global_env with
      | (.fail (.error e), c₂) => (.fail (.typecheckError e), c₂)
      | (.fail .notParsed, c₂) => (.panicked .prepareTypecheckNotParsed, c₂)
      | (.panicked m, c₂) => (.panicked m, c₂)
      | (.ok typecheck_res, c₂) =>
          match c₂.transform ext file_id with
          | (.fail (.error e), c₃) => (.fail (.importError e), c₃)
          | (.fail .notParsed, c₃) => (.panicked .prepareTransformNotParsed, c₃)
          | (.panicked m, c₃) => (.panicked m, c₃)
          | (.ok transform_res, c₃) =>
              (.ok
                (if parse_res = .done ∨ typecheck_res = .done ∨
                    transform_res = .done
                  then .done else .cached), c₃)

/-! ## The `ImportResolver` implementation of `Cache` -/

/-- `<Cache as ImportResolver>::resolve`: short-circuit to `FromCache`
when the normalized path already has a name-id entry; otherwise load the
file (registering the name when normalization succeeded), parse it, and
return `FromFile` with the parsed term. -/
def Cache.resolve (c : Cache) (fs : FileSystem) (ext : Extern) (path : String)
    (parent : Option String) (pos : Option RawSpan) :
    CResult ImportError (ResolvedTerm × Nat) × Cache :=
  let wp := with_parent fs path parent
  let path_buf := wp.1
  let normalized := wp.2
  match normalized.bind (fun p => c.id_of p) with
  | some id => (.ok (.fromCache, id), c)
  | none =>
      let loaded :=
        match normalized with
        | some p => c.add_file_normalized fs p
        | none => c.load_file fs path_buf
      match loaded with
      | (.error e, c₁) => (.fail (.ioError path e pos), c₁)
      | (.ok file_id, c₁) =>
          match c₁.parse ext file_id with
          | (.fail e, c₂) => (.fail (.parseError e pos), c₂)
          | (.panicked m, c₂) => (.panicked m, c₂)
          | (.ok _, c₂) =>
              match c₂.get_owned file_id with
              | none => (.panicked .getOwnedUnwrap, c₂)
              | some t => (.ok (.fromFile t path, file_id), c₂)

/-- Result of `<Cache as ImportResolver>::get`, separating the
`debug_assert!` failure from the two regular outcomes. -/
inductive GetResult where
  | noEntry
  | found (t : RichTerm)
  | panicked

/-- `<Cache as ImportResolver>::get`: `None` when there is no entry;
otherwise assert (`debug_assert!`) that the state is `Transformed` and
return the term. -/
def Cache.get (c : Cache) (file_id : Nat) : GetResult :=
  match lookupA c.terms file_id with
  | none => .noEntry
  | some (t, state) =>
      if state = .transformed then .found t else .panicked

/-- `<Cache as ImportResolver>::get_id`. -/
def Cache.get_id (c : Cache) (fs : FileSystem) (path : String)
    (parent : Option String) : Option Nat :=
  ((with_parent fs path parent).2.bind (fun p => lookupA c.file_ids p)).map
    (fun entry => entry.id)

/-- `<Cache as ImportResolver>::insert`: unconditionally overwrite the
entry with the given term at state `Transformed`. -/
def Cache.insert (c : Cache) (file_id : Nat) (term : RichTerm) : Cache :=
  { c with terms := insertA c.terms file_id (term, .transformed) }

/-! ## Sequences of cache operations (for the stage-monotonicity claim) -/

/-- One call to one of the stage-affecting cache operations. -/
inductive OpCall where
  | parseOp (file_id : Nat)
  | typecheckOp (file_id : Nat) (global_env : Environment)
  | transformOp (file_id : Nat)
  | transformInnerOp (file_id : Nat)
  | prepareOp (file_id : Nat) (global_env : Environment)
  | resolveOp (path : String) (parent : Option String) (pos : Option RawSpan)
  | insertOp (file_id : Nat) (term : RichTerm)

/-- How a call ended: `Ok`, `Err`, or a panic. -/
inductive OpOutcome where
  | okOp
  | failedOp
  | panickedOp
deriving DecidableEq, Repr

/-- Forget the payload of a `CResult`. -/
def CResult.outcome {ε α : Type} : CResult ε α → OpOutcome
  | .ok _ => .okOp
  | .fail _ => .failedOp
  | .panicked _ => .panickedOp

/-- Run one operation, returning how it ended and the cache it leaves
behind. -/
def applyOp (fs : FileSystem) (ext : Extern) (c : Cache) :
    OpCall → OpOutcome × Cache
  | .parseOp id => ((c.parse ext id).1.outcome, (c.parse ext id).2)
  | .typecheckOp id env =>
      ((c.typecheck ext id env).1.outcome, (c.typecheck ext id env).2)
  | .transformOp id => ((c.transform ext id).1.outcome, (c.transform ext id).2)
  | .transformInnerOp id =>
      ((c.transform_inner ext id).1.outcome, (c.transform_inner ext id).2)
  | .prepareOp id env =>
      ((c.prepare ext id env).1.outcome, (c.prepare ext id env).2)
  | .resolveOp path parent pos =>
      ((c.resolve fs ext path parent pos).1.outcome,
        (c.resolve fs ext path parent pos).2)
  | .insertOp id t => (.okOp, c.insert id t)

/-- Run a sequence of operations, keeping only the final cache. -/
def runOps (fs : FileSystem) (ext : Extern) : Cache → List OpCall → Cache
  | c, [] => c
  | c, op :: rest => runOps fs ext (applyOp fs ext c op).2 rest

/-- Every operation of the sequence returned `Ok` (no error, no panic). -/
def allOk (fs : FileSystem) (ext : Extern) : Cache → List OpCall → Bool
  | _, [] => true
  | c, op :: rest =>
      (applyOp fs ext c op).1 = OpOutcome.okOp &&
        allOk fs ext (applyOp fs ext c op).2 rest

/-- Rank of an observed stage, with "no entry" strictly below every
stage: `none < Parsed < Typechecked < Transformed`. -/
def stageRank : Option EntryState → Nat
  | none => 0
  | some s => s.rank

/-! ## Concrete oracles and caches used by witnesses and counterexamples -/

/-- A filesystem with one file: the logical name "a" canonicalizes to
"A", whose content is "x" with timestamp 5; every other path fails. -/
def fsOne : FileSystem where
  readFile := fun p => if p = "A" then .ok "x" else .error "no such file"
  modified := fun p => if p = "A" then .ok 5 else .error "no such file"
  canonicalize := fun p => if p = "a" ∨ p = "A" then some "A" else none
  pathPop := fun _ => ""
  pathPush := fun _ q => q

/-- A filesystem on which canonicalization always fails but the path
"raw" is readable. -/
def fsRawOnly : FileSystem where
  readFile := fun p => if p = "raw" then .ok "y" else .error "no such file"
  modified := fun _ => .error "no such file"
  canonicalize := fun _ => none
  pathPop := fun _ => ""
  pathPush := fun _ q => q

/-- Oracles on which every pass succeeds: parsing yields `atom 0`,
typechecking succeeds, and the transformation pass maps `atom n` to
`atom (n + 1)` (and any record to itself). -/
def extOk : Extern where
  parseFn := fun _ _ => .ok (.atom 0)
  typeCheckFn := fun _ _ => .ok ()
  transformFn := fun t =>
    match t with
    | .atom n => .ok (.atom (n + 1))
    | t => .ok t

/-- Oracles whose transformation pass always fails with an import
error. -/
def extBadTransform : Extern where
  parseFn := fun _ _ => .ok (.atom 0)
  typeCheckFn := fun _ _ => .ok ()
  transformFn := fun _ => .error (.ioError "lib" "no such file" none)

/-- A cache holding one loaded source whose term cache has the single
entry `0 ↦ (atom 0, Parsed)`. -/
def cacheParsed : Cache :=
  ⟨[("A", "x")], [("A", ⟨0, some 5⟩)], [(0, (.atom 0, .parsed))]⟩

/-- A cache holding one loaded source whose term cache has the single
entry `0 ↦ (atom 0, Typechecked)`. -/
def cacheTypechecked : Cache :=
  ⟨[("A", "x")], [("A", ⟨0, some 5⟩)], [(0, (.atom 0, .typechecked))]⟩

/-- A cache holding the single string source "main", not yet parsed. -/
def cacheStr : Cache := (Cache.new.add_string "main" "1").2

/-- Pointwise comparison of observed stages between two caches: every
handle's stage in the second cache is at least its stage in the first. -/
def stageLe (c c' : Cache) : Prop :=
  ∀ h : Nat, stageRank (c.entry_state h) ≤ stageRank (c'.entry_state h)

/-! ## Helper lemmas about the individual operations -/

theorem stageRank_le_three (o : Option EntryState) : stageRank o ≤ 3 := by
  rcases o with _ | s
  · simp [stageRank]
  · cases s <;> simp [stageRank, EntryState.rank]

theorem stageLe_refl (c : Cache) : stageLe c c := fun _ => le_refl _

theorem stageLe_trans {c₁ c₂ c₃ : Cache} (h₁ : stageLe c₁ c₂) (h₂ : stageLe c₂ c₃) :
    stageLe c₁ c₃ := fun h => le_trans (h₁ h) (h₂ h)

theorem entry_state_insertA_self (c : Cache) (id : Nat) (t : RichTerm)
    (s : EntryState) :
    Cache.entry_state { c with terms := insertA c.terms id (t, s) } id = some s := by
  simp [Cache.entry_state, lookupA_insertA_self]

theorem entry_state_insertA_ne (c : Cache) (id h : Nat) (t : RichTerm)
    (s : EntryState) (hne : h ≠ id) :
    Cache.entry_state { c with terms := insertA c.terms id (t, s) } h =
      c.entry_state h := by
  simp [Cache.entry_state, lookupA_insertA_ne _ _ _ _ hne]

theorem stageLe_insert (c : Cache) (id : Nat) (t : RichTerm) (s : EntryState)
    (hle : stageRank (c.entry_state id) ≤ s.rank) :
    stageLe c { c with terms := insertA c.terms id (t, s) } := by
  intro h
  by_cases hne : h = id
  · subst hne
    rw [entry_state_insertA_self]
    exact hle
  · rw [entry_state_insertA_ne c id h t s hne]

theorem stageLe_erase_insert_transformed (c : Cache) (id : Nat) (t : RichTerm) :
    stageLe c
      { c with terms := insertA (eraseA c.terms id) id (t, .transformed) } := by
  intro h
  by_cases hne : h = id
  · subst hne
    have : lookupA (insertA (eraseA c.terms h) h (t, EntryState.transformed)) h =
        some (t, .transformed) := lookupA_insertA_self _ _ _
    simp [Cache.entry_state, this]
    exact le_trans (stageRank_le_three _) (by simp [stageRank, EntryState.rank])
  · have : lookupA (insertA (eraseA c.terms id) id (t, EntryState.transformed)) h =
        lookupA c.terms h := by
      rw [lookupA_insertA_ne _ _ _ _ hne, lookupA_eraseA_ne _ _ _ hne]
    simp [Cache.entry_state, this]

theorem load_file_terms (c : Cache) (fs : FileSystem) (p : String) :
    ((c.load_file fs p).2).terms = c.terms := by
  unfold Cache.load_file
  split <;> rfl

theorem add_file_normalized_terms (c : Cache) (fs : FileSystem) (p : String) :
    ((c.add_file_normalized fs p).2).terms = c.terms := by
  have hlt := load_file_terms c fs p
  unfold Cache.add_file_normalized
  rcases hm : fs.modified p with e | ts
  · simp only [hm]
  · simp only [hm]
    rcases hl : c.load_file fs p with ⟨r, c₁⟩
    have h₁ : c₁.terms = c.terms := by
      rw [hl] at hlt
      exact hlt
    rcases r with e | fid <;> exact h₁

/-- Exhaustive description of a successful `parse`. -/
theorem parse_ok_cases (c : Cache) (ext : Extern) (id : Nat) (op : CacheOp)
    (h : (c.parse ext id).1 = .ok op) :
    (op = .cached ∧ containsA c.terms id = true ∧
        c.parse ext id = (.ok .cached, c)) ∨
      (op = .done ∧ containsA c.terms id = false ∧
        ∃ name buf t, c.files[id]? = some (name, buf) ∧
          ext.parseFn id buf = .ok t ∧
          c.parse ext id =
            (.ok .done,
              { c with terms := insertA c.terms id (t, EntryState.parsed) })) := by
  by_cases hc : containsA c.terms id
  · have hpair : c.parse ext id = (.ok .cached, c) := by
      simp [Cache.parse, hc]
    rw [hpair] at h
    simp at h
    exact Or.inl ⟨h.symm, hc, hpair⟩
  · rcases hg : c.files[id]? with _ | ⟨name, buf⟩
    · have hpair : c.parse ext id = (.panicked .filesSourceUnknownId, c) := by
        simp [Cache.parse, hc, hg]
      rw [hpair] at h
      simp at h
    · rcases hp : ext.parseFn id buf with e | t
      · have hpair : c.parse ext id = (.fail e, c) := by
          simp [Cache.parse, hc, hg, hp]
        rw [hpair] at h
        simp at h
      · have hpair : c.parse ext id =
            (.ok .done,
              { c with terms := insertA c.terms id (t, EntryState.parsed) }) := by
          simp [Cache.parse, hc, hg, hp]
        rw [hpair] at h
        simp at h
        exact Or.inr ⟨h.symm, by simpa using hc, name, buf, t, rfl, hp, hpair⟩

theorem parse_ok_contains (c : Cache) (ext : Extern) (id : Nat) (op : CacheOp)
    (h : (c.parse ext id).1 = .ok op) :
    containsA ((c.parse ext id).2).terms id = true := by
  rcases parse_ok_cases c ext id op h with ⟨_, hc, heq⟩ |
    ⟨_, _, name, buf, t, _, _, heq⟩
  · rw [heq]
    exact hc
  · rw [heq]
    simp [containsA, lookupA_insertA_self]

/-- The only panic `parse` can raise is the `files.source` lookup. -/
theorem parse_panic_cases (c : Cache) (ext : Extern) (id : Nat) (m : PanicMsg)
    (h : (c.parse ext id).1 = .panicked m) : m = .filesSourceUnknownId := by
  by_cases hc : containsA c.terms id
  · rw [show c.parse ext id = (.ok .cached, c) by simp [Cache.parse, hc]] at h
    simp at h
  · rcases hg : c.files[id]? with _ | ⟨name, buf⟩
    · rw [show c.parse ext id = (.panicked .filesSourceUnknownId, c) by
        simp [Cache.parse, hc, hg]] at h
      simp at h
      exact h.symm
    · rcases hp : ext.parseFn id buf with e | t
      · rw [show c.parse ext id = (.fail e, c) by simp [Cache.parse, hc, hg, hp]] at h
        simp at h
      · rw [show c.parse ext id =
            (.ok .done,
              { c with terms := insertA c.terms id (t, EntryState.parsed) }) by
          simp [Cache.parse, hc, hg, hp]] at h
        simp at h

/-- Exhaustive description of a successful `typecheck`. -/
theorem typecheck_ok_cases (c : Cache) (ext : Extern) (id : Nat)
    (env : Environment) (op : CacheOp)
    (h : (c.typecheck ext id env).1 = .ok op) :
    (op = .cached ∧ (∃ t, lookupA c.terms id = some (t, .transformed)) ∧
        c.typecheck ext id env = (.ok .cached, c)) ∨
      (op = .done ∧ ∃ t, lookupA c.terms id = some (t, .parsed) ∧
        ext.typeCheckFn t env = .ok () ∧
        c.typecheck ext id env =
          (.ok .done,
            { c with terms := insertA c.terms id (t, EntryState.typechecked) })) := by
  rcases hlk : lookupA c.terms id with _ | ⟨t, s⟩
  · have hc : containsA c.terms id = false := by simp [containsA, hlk]
    rw [show c.typecheck ext id env = (.fail .notParsed, c) by
      simp [Cache.typecheck, hc]] at h
    simp at h
  · have hc : containsA c.terms id = true := by simp [containsA, hlk]
    cases s with
    | transformed =>
        have hpair : c.typecheck ext id env = (.ok .cached, c) := by
          simp [Cache.typecheck, hc, hlk, EntryState.rank]
        rw [hpair] at h
        simp at h
        exact Or.inl ⟨h.symm, ⟨t, rfl⟩, hpair⟩
    | typechecked =>
        rw [show c.typecheck ext id env =
            (.panicked .typecheckUnreachableState, c) by
          simp [Cache.typecheck, hc, hlk, EntryState.rank]] at h
        simp at h
    | parsed =>
        rcases ht : ext.typeCheckFn t env with e | u
        · rw [show c.typecheck ext id env = (.fail (.error e), c) by
            simp [Cache.typecheck, hc, hlk, EntryState.rank, ht]] at h
          simp at h
        · obtain rfl : u = () := rfl
          have hpair : c.typecheck ext id env =
              (.ok .done,
                { c with terms := insertA c.terms id (t, EntryState.typechecked) }) := by
            simp [Cache.typecheck, hc, hlk, EntryState.rank, ht, Cache.update_state]
          rw [hpair] at h
          simp at h
          exact Or.inr ⟨h.symm, t, rfl, ht, hpair⟩

/-- The panics `typecheck` can raise. -/
theorem typecheck_panic_cases (c : Cache) (ext : Extern) (id : Nat)
    (env : Environment) (m : PanicMsg)
    (h : (c.typecheck ext id env).1 = .panicked m) :
    m = .typecheckUnreachableState := by
  rcases hlk : lookupA c.terms id with _ | ⟨t, s⟩
  · have hc : containsA c.terms id = false := by simp [containsA, hlk]
    rw [show c.typecheck ext id env = (.fail .notParsed, c) by
      simp [Cache.typecheck, hc]] at h
    simp at h
  · have hc : containsA c.terms id = true := by simp [containsA, hlk]
    cases s with
    | transformed =>
        rw [show c.typecheck ext id env = (.ok .cached, c) by
          simp [Cache.typecheck, hc, hlk, EntryState.rank]] at h
        simp at h
    | typechecked =>
        rw [show c.typecheck ext id env =
            (.panicked .typecheckUnreachableState, c) by
          simp [Cache.typecheck, hc, hlk, EntryState.rank]] at h
        simp at h
        exact h.symm
    | parsed =>
        rcases ht : ext.typeCheckFn t env with e | u
        · rw [show c.typecheck ext id env = (.fail (.error e), c) by
            simp [Cache.typecheck, hc, hlk, EntryState.rank, ht]] at h
          simp at h
        · rw [show c.typecheck ext id env =
              (.ok .done,
                { c with terms := insertA c.terms id (t, EntryState.typechecked) }) by
            simp [Cache.typecheck, hc, hlk, EntryState.rank, ht,
              Cache.update_state]] at h
          simp at h

/-- `typecheck` reports `NotParsed` exactly on a missing entry. -/
theorem typecheck_notParsed_iff (c : Cache) (ext : Extern) (id : Nat)
    (env : Environment) :
    (c.typecheck ext id env).1 = .fail .notParsed ↔
      containsA c.terms id = false := by
  constructor
  · intro h
    by_contra hc
    have hc' : containsA c.terms id = true := by
      revert hc
      cases containsA c.terms id <;> simp
    rcases hlk : lookupA c.terms id with _ | ⟨t, s⟩
    · rw [containsA, hlk] at hc'
      simp at hc'
    · cases s with
      | transformed =>
          rw [show c.typecheck ext id env = (.ok .cached, c) by
            simp [Cache.typecheck, hc', hlk, EntryState.rank]] at h
          simp at h
      | typechecked =>
          rw [show c.typecheck ext id env =
              (.panicked .typecheckUnreachableState, c) by
            simp [Cache.typecheck, hc', hlk, EntryState.rank]] at h
          simp at h
      | parsed =>
          rcases ht : ext.typeCheckFn t env with e | u
          · rw [show c.typecheck ext id env = (.fail (.error e), c) by
              simp [Cache.typecheck, hc', hlk, EntryState.rank, ht]] at h
            simp at h
          · rw [show c.typecheck ext id env =
                (.ok .done,
                  { c with
                    terms := insertA c.terms id (t, EntryState.typechecked) }) by
              simp [Cache.typecheck, hc', hlk, EntryState.rank, ht,
                Cache.update_state]] at h
            simp at h
  · intro hc
    simp [Cache.typecheck, hc]

/-- A successful `typecheck` leaves the entry present. -/
theorem typecheck_ok_entry (c : Cache) (ext : Extern) (id : Nat)
    (env : Environment) (op : CacheOp)
    (h : (c.typecheck ext id env).1 = .ok op) :
    ((c.typecheck ext id env).2).entry_state id ≠ none := by
  rcases typecheck_ok_cases c ext id env op h with ⟨_, ⟨t, hlk⟩, heq⟩ |
    ⟨_, t, hlk, _, heq⟩
  · rw [heq]
    simp [Cache.entry_state, hlk]
  · rw [heq]
    simp [Cache.entry_state, lookupA_insertA_self]

/-- Exhaustive description of a successful `transform`. -/
theorem transform_ok_cases (c : Cache) (ext : Extern) (id : Nat) (op : CacheOp)
    (h : (c.transform ext id).1 = .ok op) :
    (op = .cached ∧ (∃ t, lookupA c.terms id = some (t, .transformed)) ∧
        c.transform ext id = (.ok .cached, c)) ∨
      (op = .done ∧ ∃ t s t₁, lookupA c.terms id = some (t, s) ∧
        s ≠ .transformed ∧ ext.transformFn t = .ok t₁ ∧
        c.transform ext id =
          (.ok .done,
            { c with
              terms := insertA (eraseA c.terms id) id (t₁, EntryState.transformed) })) := by
  rcases hlk : lookupA c.terms id with _ | ⟨t, s⟩
  · have he : c.entry_state id = none := by simp [Cache.entry_state, hlk]
    rw [show c.transform ext id = (.fail .notParsed, c) by
      simp [Cache.transform, he]] at h
    simp at h
  · have he : c.entry_state id = some s := by simp [Cache.entry_state, hlk]
    cases s with
    | transformed =>
        have hpair : c.transform ext id = (.ok .cached, c) := by
          simp [Cache.transform, he]
        rw [hpair] at h
        simp at h
        exact Or.inl ⟨h.symm, ⟨t, rfl⟩, hpair⟩
    | parsed =>
        rcases htr : ext.transformFn t with e | t₁
        · rw [show c.transform ext id =
              (.fail (.error e), { c with terms := eraseA c.terms id }) by
            simp [Cache.transform, he, hlk, htr]] at h
          simp at h
        · have hpair : c.transform ext id =
              (.ok .done,
                { c with
                  terms :=
                    insertA (eraseA c.terms id) id (t₁, EntryState.transformed) }) := by
            simp [Cache.transform, he, hlk, htr]
          rw [hpair] at h
          simp at h
          exact Or.inr ⟨h.symm, t, .parsed, t₁, rfl, by simp, htr, hpair⟩
    | typechecked =>
        rcases htr : ext.transformFn t with e | t₁
        · rw [show c.transform ext id =
              (.fail (.error e), { c with terms := eraseA c.terms id }) by
            simp [Cache.transform, he, hlk, htr]] at h
          simp at h
        · have hpair : c.transform ext id =
              (.ok .done,
                { c with
                  terms :=
                    insertA (eraseA c.terms id) id (t₁, EntryState.transformed) }) := by
            simp [Cache.transform, he, hlk, htr]
          rw [hpair] at h
          simp at h
          exact Or.inr ⟨h.symm, t, .typechecked, t₁, rfl, by simp, htr, hpair⟩

/-- The only panic `transform` can raise is the unreachable `unwrap`. -/
theorem transform_panic_cases (c : Cache) (ext : Extern) (id : Nat) (m : PanicMsg)
    (h : (c.transform ext id).1 = .panicked m) : m = .termsGetUnwrap := by
  rcases hlk : lookupA c.terms id with _ | ⟨t, s⟩
  · have he : c.entry_state id = none := by simp [Cache.entry_state, hlk]
    rw [show c.transform ext id = (.fail .notParsed, c) by
      simp [Cache.transform, he]] at h
    simp at h
  · have he : c.entry_state id = some s := by simp [Cache.entry_state, hlk]
    cases s with
    | transformed =>
        rw [show c.transform ext id = (.ok .cached, c) by
          simp [Cache.transform, he]] at h
        simp at h
    | parsed =>
        rcases htr : ext.transformFn t with e | t₁ <;>
          [rw [show c.transform ext id =
              (.fail (.error e), { c with terms := eraseA c.terms id }) by
            simp [Cache.transform, he, hlk, htr]] at h;
          rw [show c.transform ext id =
              (.ok .done,
                { c with
                  terms :=
                    insertA (eraseA c.terms id) id (t₁, EntryState.transformed) }) by
            simp [Cache.transform, he, hlk, htr]] at h] <;>
          simp at h
    | typechecked =>
        rcases htr : ext.transformFn t with e | t₁ <;>
          [rw [show c.transform ext id =
              (.fail (.error e), { c with terms := eraseA c.terms id }) by
            simp [Cache.transform, he, hlk, htr]] at h;
          rw [show c.transform ext id =
              (.ok .done,
                { c with
                  terms :=
                    insertA (eraseA c.terms id) id (t₁, EntryState.transformed) }) by
            simp [Cache.transform, he, hlk, htr]] at h] <;>
          simp at h

/-- `transform` reports `NotParsed` exactly on a missing entry. -/
theorem transform_notParsed_iff (c : Cache) (ext : Extern) (id : Nat) :
    (c.transform ext id).1 = .fail .notParsed ↔ c.entry_state id = none := by
  constructor
  · intro h
    rcases hlk : lookupA c.terms id with _ | ⟨t, s⟩
    · simp [Cache.entry_state, hlk]
    · exfalso
      have he : c.entry_state id = some s := by simp [Cache.entry_state, hlk]
      cases s with
      | transformed =>
          rw [show c.transform ext id = (.ok .cached, c) by
            simp [Cache.transform, he]] at h
          simp at h
      | parsed =>
          rcases htr : ext.transformFn t with e | t₁ <;>
            [rw [show c.transform ext id =
                (.fail (.error e), { c with terms := eraseA c.terms id }) by
              simp [Cache.transform, he, hlk, htr]] at h;
            rw [show c.transform ext id =
                (.ok .done,
                  { c with
                    terms :=
                      insertA (eraseA c.terms id) id (t₁, EntryState.transformed) }) by
              simp [Cache.transform, he, hlk, htr]] at h] <;>
            simp at h
      | typechecked =>
          rcases htr : ext.transformFn t with e | t₁ <;>
            [rw [show c.transform ext id =
                (.fail (.error e), { c with terms := eraseA c.terms id }) by
              simp [Cache.transform, he, hlk, htr]] at h;
            rw [show c.transform ext id =
                (.ok .done,
                  { c with
                    terms :=
                      insertA (eraseA c.terms id) id (t₁, EntryState.transformed) }) by
              simp [Cache.transform, he, hlk, htr]] at h] <;>
            simp at h
  · intro he
    simp [Cache.transform, he]

/-- A successful `transform_inner` either leaves the cache unchanged or
commits a `Transformed` entry for the argument handle. -/
theorem transform_inner_ok_cases (c : Cache) (ext : Extern) (id : Nat)
    (op : CacheOp) (h : (c.transform_inner ext id).1 = .ok op) :
    (c.transform_inner ext id).2 = c ∨
      ∃ t₁, (c.transform_inner ext id).2 =
        { c with
          terms := insertA (eraseA c.terms id) id (t₁, EntryState.transformed) } := by
  rcases hlk : lookupA c.terms id with _ | ⟨t, s⟩
  · have he : c.entry_state id = none := by simp [Cache.entry_state, hlk]
    rw [show c.transform_inner ext id = (.fail .notParsed, c) by
      simp [Cache.transform_inner, he]] at h
    simp at h
  · have he : c.entry_state id = some s := by simp [Cache.entry_state, hlk]
    cases s with
    | transformed =>
        rw [show c.transform_inner ext id = (.ok .cached, c) by
          simp [Cache.transform_inner, he]]
        exact Or.inl rfl
    | parsed =>
        rcases t with fields | fields | n
        · rcases hf : transformFields ext fields with e | fields₁
          · rw [show c.transform_inner ext id =
                (.fail (.error e), { c with terms := eraseA c.terms id }) by
              simp [Cache.transform_inner, he, hlk, hf]] at h
            simp at h
          · rw [show c.transform_inner ext id =
                (.ok .done,
                  { c with
                    terms := insertA (eraseA c.terms id) id
                      (.record fields₁, EntryState.transformed) }) by
              simp [Cache.transform_inner, he, hlk, hf]]
            exact Or.inr ⟨.record fields₁, rfl⟩
        · rcases hf : transformFields ext fields with e | fields₁
          · rw [show c.transform_inner ext id =
                (.fail (.error e), { c with terms := eraseA c.terms id }) by
              simp [Cache.transform_inner, he, hlk, hf]] at h
            simp at h
          · rw [show c.transform_inner ext id =
                (.ok .done,
                  { c with
                    terms := insertA (eraseA c.terms id) id
                      (.recRecord fields₁, EntryState.transformed) }) by
              simp [Cache.transform_inner, he, hlk, hf]]
            exact Or.inr ⟨.recRecord fields₁, rfl⟩
        · rw [show c.transform_inner ext id =
              (.panicked .transformInnerNotRecord,
                { c with terms := eraseA c.terms id }) by
            simp [Cache.transform_inner, he, hlk]] at h
          simp at h
    | typechecked =>
        rcases t with fields | fields | n
        · rcases hf : transformFields ext fields with e | fields₁
          · rw [show c.transform_inner ext id =
                (.fail (.error e), { c with terms := eraseA c.terms id }) by
              simp [Cache.transform_inner, he, hlk, hf]] at h
            simp at h
          · rw [show c.transform_inner ext id =
                (.ok .done,
                  { c with
                    terms := insertA (eraseA c.terms id) id
                      (.record fields₁, EntryState.transformed) }) by
              simp [Cache.transform_inner, he, hlk, hf]]
            exact Or.inr ⟨.record fields₁, rfl⟩
        · rcases hf : transformFields ext fields with e | fields₁
          · rw [show c.transform_inner ext id =
                (.fail (.error e), { c with terms := eraseA c.terms id }) by
              simp [Cache.transform_inner, he, hlk, hf]] at h
            simp at h
          · rw [show c.transform_inner ext id =
                (.ok .done,
                  { c with
                    terms := insertA (eraseA c.terms id) id
                      (.recRecord fields₁, EntryState.transformed) }) by
              simp [Cache.transform_inner, he, hlk, hf]]
            exact Or.inr ⟨.recRecord fields₁, rfl⟩
        · rw [show c.transform_inner ext id =
              (.panicked .transformInnerNotRecord,
                { c with terms := eraseA c.terms id }) by
            simp [Cache.transform_inner, he, hlk]] at h
          simp at h

/-- A successful `resolve` either leaves the term cache unchanged or
adds exactly one fresh `Parsed` entry. -/
theorem resolve_ok_terms (c : Cache) (fs : FileSystem) (ext : Extern)
    (path : String) (parent : Option String) (pos : Option RawSpan)
    (r : ResolvedTerm × Nat)
    (h : (c.resolve fs ext path parent pos).1 = .ok r) :
    ((c.resolve fs ext path parent pos).2).terms = c.terms ∨
      ∃ fid t, containsA c.terms fid = false ∧
        ((c.resolve fs ext path parent pos).2).terms =
          insertA c.terms fid (t, EntryState.parsed) := by
  rcases hn : (with_parent fs path parent).2 with _ | p
  · -- normalization failed: load the raw path, never consult the name index
    rcases hload : c.load_file fs (with_parent fs path parent).1 with ⟨rl, c₁⟩
    have hterms : c₁.terms = c.terms := by
      have := load_file_terms c fs (with_parent fs path parent).1
      rw [hload] at this
      exact this
    rcases rl with e | fid
    · rw [show c.resolve fs ext path parent pos =
          (.fail (.ioError path e pos), c₁) by
        simp [Cache.resolve, hn, hload]] at h
      simp at h
    · rcases hp : c₁.parse ext fid with ⟨rp, c₂⟩
      have hterms₂ := parse_ok_cases c₁ ext fid
      rcases rp with rp₁ | e | m
      case fail =>
        rw [show c.resolve fs ext path parent pos =
            (.fail (.parseError e pos), c₂) by
          simp [Cache.resolve, hn, hload, hp]] at h
        simp at h
      case panicked =>
        rw [show c.resolve fs ext path parent pos = (.panicked m, c₂) by
          simp [Cache.resolve, hn, hload, hp]] at h
        simp at h
      case ok =>
        have hcases := hterms₂ rp₁ (by rw [hp])
        rcases hgo : c₂.get_owned fid with _ | t
        · rw [show c.resolve fs ext path parent pos =
              (.panicked .getOwnedUnwrap, c₂) by
            simp [Cache.resolve, hn, hload, hp, hgo]] at h
          simp at h
        · have hres : (c.resolve fs ext path parent pos).2 = c₂ := by
            simp [Cache.resolve, hn, hload, hp, hgo]
          rw [hres]
          rcases hcases with ⟨_, _, heq⟩ | ⟨_, hcc, name, buf, t₀, _, _, heq⟩
          · rw [hp] at heq
            simp at heq
            rw [heq.2, hterms]
            exact Or.inl rfl
          · rw [hp] at heq
            simp at heq
            rw [heq.2]
            simp only [hterms]
            exact Or.inr ⟨fid, t₀, by rw [← hterms]; exact hcc, rfl⟩
  · rcases hid : c.id_of p with _ | id
    · -- name miss: register through add_file_normalized, then parse
      rcases hload : c.add_file_normalized fs p with ⟨rl, c₁⟩
      have hterms : c₁.terms = c.terms := by
        have := add_file_normalized_terms c fs p
        rw [hload] at this
        exact this
      rcases rl with e | fid
      · rw [show c.resolve fs ext path parent pos =
            (.fail (.ioError path e pos), c₁) by
          simp [Cache.resolve, hn, hid, hload]] at h
        simp at h
      · rcases hp : c₁.parse ext fid with ⟨rp, c₂⟩
        have hterms₂ := parse_ok_cases c₁ ext fid
        rcases rp with rp₁ | e | m
        case fail =>
          rw [show c.resolve fs ext path parent pos =
              (.fail (.parseError e pos), c₂) by
            simp [Cache.resolve, hn, hid, hload, hp]] at h
          simp at h
        case panicked =>
          rw [show c.resolve fs ext path parent pos = (.panicked m, c₂) by
            simp [Cache.resolve, hn, hid, hload, hp]] at h
          simp at h
        case ok =>
          have hcases := hterms₂ rp₁ (by rw [hp])
          rcases hgo : c₂.get_owned fid with _ | t
          · rw [show c.resolve fs ext path parent pos =
                (.panicked .getOwnedUnwrap, c₂) by
              simp [Cache.resolve, hn, hid, hload, hp, hgo]] at h
            simp at h
          · have hres : (c.resolve fs ext path parent pos).2 = c₂ := by
              simp [Cache.resolve, hn, hid, hload, hp, hgo]
            rw [hres]
            rcases hcases with ⟨_, _, heq⟩ | ⟨_, hcc, name, buf, t₀, _, _, heq⟩
            · rw [hp] at heq
              simp at heq
              rw [heq.2, hterms]
              exact Or.inl rfl
            · rw [hp] at heq
              simp at heq
              rw [heq.2]
              simp only [hterms]
              exact Or.inr ⟨fid, t₀, by rw [← hterms]; exact hcc, rfl⟩
    · -- name hit: FromCache, no mutation at all
      rw [show c.resolve fs ext path parent pos = (.ok (.fromCache, id), c) by
        simp [Cache.resolve, hn, hid]]
      exact Or.inl rfl

/-- A successful `prepare` decomposes into successful parse, typecheck
and transform steps. -/
theorem prepare_ok_chain (c : Cache) (ext : Extern) (id : Nat)
    (env : Environment) (op : CacheOp)
    (h : (c.prepare ext id env).1 = .ok op) :
    ∃ r₁ r₂ r₃ c₁ c₂ c₃,
      c.parse ext id = (.ok r₁, c₁) ∧
      c₁.typecheck ext id env = (.ok r₂, c₂) ∧
      c₂.transform ext id = (.ok r₃, c₃) ∧
      (c.prepare ext id env).2 = c₃ ∧
      (op = .cached ↔ r₁ = .cached ∧ r₂ = .cached ∧ r₃ = .cached) := by
  rcases hp : c.parse ext id with ⟨rp, c₁⟩
  rcases rp with r₁ | e | m
  case fail =>
    rw [show c.prepare ext id env = (.fail (.parseError e), c₁) by
      simp [Cache.prepare, hp]] at h
    simp at h
  case panicked =>
    rw [show c.prepare ext id env = (.panicked m, c₁) by
      simp [Cache.prepare, hp]] at h
    simp at h
  case ok =>
    rcases ht : c₁.typecheck ext id env with ⟨rt, c₂⟩
    rcases rt with r₂ | fe | m
    case fail =>
      rcases fe with e | _
      · rw [show c.prepare ext id env = (.fail (.typecheckError e), c₂) by
          simp [Cache.prepare, hp, ht]] at h
        simp at h
      · rw [show c.prepare ext id env =
            (.panicked .prepareTypecheckNotParsed, c₂) by
          simp [Cache.prepare, hp, ht]] at h
        simp at h
    case panicked =>
      rw [show c.prepare ext id env = (.panicked m, c₂) by
        simp [Cache.prepare, hp, ht]] at h
      simp at h
    case ok =>
      rcases htr : c₂.transform ext id with ⟨rr, c₃⟩
      rcases rr with r₃ | fe | m
      case fail =>
        rcases fe with e | _
        · rw [show c.prepare ext id env = (.fail (.importError e), c₃) by
            simp [Cache.prepare, hp, ht, htr]] at h
          simp at h
        · rw [show c.prepare ext id env =
              (.panicked .prepareTransformNotParsed, c₃) by
            simp [Cache.prepare, hp, ht, htr]] at h
          simp at h
      case panicked =>
        rw [show c.prepare ext id env = (.panicked m, c₃) by
          simp [Cache.prepare, hp, ht, htr]] at h
        simp at h
      case ok =>
        have hpair : c.prepare ext id env =
            (.ok (if r₁ = .done ∨ r₂ = .done ∨ r₃ = .done
              then .done else .cached), c₃) := by
          simp [Cache.prepare, hp, ht, htr]
        rw [hpair] at h
        simp at h
        refine ⟨r₁, r₂, r₃, c₁, c₂, c₃, rfl, ht, htr, by rw [hpair], ?_⟩
        rw [← h]
        cases r₁ <;> cases r₂ <;> cases r₃ <;> simp

theorem outcome_ok {ε α : Type} (r : CResult ε α) (h : r.outcome = .okOp) :
    ∃ a, r = .ok a := by
  cases r <;> simp [CResult.outcome] at h ⊢

theorem lookupA_eq_none_of_containsA_false {α β : Type} [DecidableEq α]
    (l : List (α × β)) (k : α) (h : containsA l k = false) :
    lookupA l k = none := by
  rcases hx : lookupA l k with _ | v
  · rfl
  · rw [containsA, hx] at h
    simp at h

theorem stageLe_terms_eq (c c' : Cache) (ht : c'.terms = c.terms) :
    stageLe c c' := by
  intro h
  simp [Cache.entry_state, ht]

theorem stageLe_insert_parsed_terms (c c' : Cache) (fid : Nat) (t : RichTerm)
    (hcc : containsA c.terms fid = false)
    (ht : c'.terms = insertA c.terms fid (t, EntryState.parsed)) :
    stageLe c c' := by
  intro h
  simp only [Cache.entry_state, ht]
  by_cases hne : h = fid
  · subst hne
    rw [lookupA_insertA_self, lookupA_eq_none_of_containsA_false _ _ hcc]
    simp [stageRank, EntryState.rank]
  · rw [lookupA_insertA_ne _ _ _ _ hne]

theorem parse_ok_stageLe (c : Cache) (ext : Extern) (id : Nat) (r : CacheOp)
    (h : (c.parse ext id).1 = .ok r) : stageLe c ((c.parse ext id).2) := by
  rcases parse_ok_cases c ext id r h with ⟨_, _, heq⟩ |
    ⟨_, hcc, name, buf, t, _, _, heq⟩
  · rw [heq]
    exact stageLe_refl c
  · rw [heq]
    exact stageLe_insert_parsed_terms c _ id t hcc rfl

theorem typecheck_ok_stageLe (c : Cache) (ext : Extern) (id : Nat)
    (env : Environment) (r : CacheOp) (h : (c.typecheck ext id env).1 = .ok r) :
    stageLe c ((c.typecheck ext id env).2) := by
  rcases typecheck_ok_cases c ext id env r h with ⟨_, _, heq⟩ |
    ⟨_, t, hlk, _, heq⟩
  · rw [heq]
    exact stageLe_refl c
  · rw [heq]
    refine stageLe_insert c id t .typechecked ?_
    simp [Cache.entry_state, hlk, stageRank, EntryState.rank]

theorem transform_ok_stageLe (c : Cache) (ext : Extern) (id : Nat) (r : CacheOp)
    (h : (c.transform ext id).1 = .ok r) :
    stageLe c ((c.transform ext id).2) := by
  rcases transform_ok_cases c ext id r h with ⟨_, _, heq⟩ |
    ⟨_, t, s, t₁, _, _, _, heq⟩
  · rw [heq]
    exact stageLe_refl c
  · rw [heq]
    exact stageLe_erase_insert_transformed c id t₁

theorem transform_inner_ok_stageLe (c : Cache) (ext : Extern) (id : Nat)
    (r : CacheOp) (h : (c.transform_inner ext id).1 = .ok r) :
    stageLe c ((c.transform_inner ext id).2) := by
  rcases transform_inner_ok_cases c ext id r h with heq | ⟨t₁, heq⟩
  · rw [heq]
    exact stageLe_refl c
  · rw [heq]
    exact stageLe_erase_insert_transformed c id t₁

theorem prepare_ok_stageLe (c : Cache) (ext : Extern) (id : Nat)
    (env : Environment) (r : CacheOp) (h : (c.prepare ext id env).1 = .ok r) :
    stageLe c ((c.prepare ext id env).2) := by
  obtain ⟨r₁, r₂, r₃, c₁, c₂, c₃, hp, ht, htr, hfin, _⟩ :=
    prepare_ok_chain c ext id env r h
  have s₁ : stageLe c c₁ := by
    have := parse_ok_stageLe c ext id r₁ (by rw [hp])
    rwa [hp] at this
  have s₂ : stageLe c₁ c₂ := by
    have := typecheck_ok_stageLe c₁ ext id env r₂ (by rw [ht])
    rwa [ht] at this
  have s₃ : stageLe c₂ c₃ := by
    have := transform_ok_stageLe c₂ ext id r₃ (by rw [htr])
    rwa [htr] at this
  rw [hfin]
  exact stageLe_trans (stageLe_trans s₁ s₂) s₃

theorem resolve_ok_stageLe (c : Cache) (fs : FileSystem) (ext : Extern)
    (path : String) (parent : Option String) (pos : Option RawSpan)
    (r : ResolvedTerm × Nat)
    (h : (c.resolve fs ext path parent pos).1 = .ok r) :
    stageLe c ((c.resolve fs ext path parent pos).2) := by
  rcases resolve_ok_terms c fs ext path parent pos r h with ht |
    ⟨fid, t, hcc, ht⟩
  · exact stageLe_terms_eq c _ ht
  · exact stageLe_insert_parsed_terms c _ fid t hcc ht

theorem insert_stageLe (c : Cache) (id : Nat) (t : RichTerm) :
    stageLe c (c.insert id t) := by
  intro h
  by_cases hne : h = id
  · subst hne
    have : (c.insert h t).entry_state h = some .transformed := by
      simp [Cache.insert, Cache.entry_state, lookupA_insertA_self]
    rw [this]
    exact le_trans (stageRank_le_three _) (by simp [stageRank, EntryState.rank])
  · have : (c.insert id t).entry_state h = c.entry_state h := by
      simp [Cache.insert, Cache.entry_state, lookupA_insertA_ne _ _ _ _ hne]
    rw [this]

/-- Every single successful operation is stage-monotone. -/
theorem applyOp_ok_stageLe (fs : FileSystem) (ext : Extern) (c : Cache)
    (op : OpCall) (h : (applyOp fs ext c op).1 = .okOp) :
    stageLe c ((applyOp fs ext c op).2) := by
  cases op with
  | parseOp id =>
      obtain ⟨a, ha⟩ := outcome_ok _ (by simpa [applyOp] using h)
      simpa [applyOp] using parse_ok_stageLe c ext id a (by rw [ha])
  | typecheckOp id env =>
      obtain ⟨a, ha⟩ := outcome_ok _ (by simpa [applyOp] using h)
      simpa [applyOp] using typecheck_ok_stageLe c ext id env a (by rw [ha])
  | transformOp id =>
      obtain ⟨a, ha⟩ := outcome_ok _ (by simpa [applyOp] using h)
      simpa [applyOp] using transform_ok_stageLe c ext id a (by rw [ha])
  | transformInnerOp id =>
      obtain ⟨a, ha⟩ := outcome_ok _ (by simpa [applyOp] using h)
      simpa [applyOp] using transform_inner_ok_stageLe c ext id a (by rw [ha])
  | prepareOp id env =>
      obtain ⟨a, ha⟩ := outcome_ok _ (by simpa [applyOp] using h)
      simpa [applyOp] using prepare_ok_stageLe c ext id env a (by rw [ha])
  | resolveOp path parent pos =>
      obtain ⟨a, ha⟩ := outcome_ok _ (by simpa [applyOp] using h)
      simpa [applyOp] using resolve_ok_stageLe c fs ext path parent pos a
        (by rw [ha])
  | insertOp id t =>
      simpa [applyOp] using insert_stageLe c id t

/-! ## Claim theorems -/

/-- C1 counterexample: calling `add_file` twice on the same unmodified
file does NOT return the same Handle. On a filesystem where "a"
canonicalizes to "A" (content "x", timestamp 5, never changing), the
first call returns Handle 0 and the second call returns Handle 1: the
implementation never consults the stored timestamp and always mints a
fresh id. -/
theorem add_file_twice_mints_new_handle :
    (Cache.new.add_file fsOne "a").1 = .ok 0 ∧
      (((Cache.new.add_file fsOne "a").2).add_file fsOne "a").1 = .ok 1 :=
  ⟨rfl, rfl⟩

/-- C1 amended: every successful `add_file` call — regardless of any
existing Name Index entry or of the observed timestamp — loads the file
again, returns the fresh Handle `c.files.length`, and overwrites the
Name Index entry of the normalized path with that fresh Handle and the
observed timestamp. -/
theorem add_file_always_fresh_handle (fs : FileSystem) (c : Cache)
    (path p : String) (ts : Nat) (content : String)
    (hnorm : fs.canonicalize path = some p)
    (hmod : fs.modified p = .ok ts)
    (hread : fs.readFile p = .ok content) :
    (c.add_file fs path).1 = .ok c.files.length ∧
      (c.add_file fs path).2.files = c.files ++ [(p, content)] ∧
      lookupA (c.add_file fs path).2.file_ids p =
        some ⟨c.files.length, some ts⟩ := by
  have hpair : c.add_file fs path =
      (.ok c.files.length,
        { c with
          files := c.files ++ [(p, content)],
          file_ids := insertA c.file_ids p ⟨c.files.length, some ts⟩ }) := by
    simp [Cache.add_file, normalize_path, hnorm, Cache.add_file_normalized,
      hmod, Cache.load_file, hread]
  rw [hpair]
  exact ⟨rfl, rfl, lookupA_insertA_self _ _ _⟩

/-- C1 amended, witness at the concrete one-file filesystem. -/
theorem add_file_always_fresh_handle_witness :
    fsOne.canonicalize "a" = some "A" ∧
      ((Cache.new.add_file fsOne "a").1 = .ok Cache.new.files.length ∧
        (Cache.new.add_file fsOne "a").2.files =
          Cache.new.files ++ [("A", "x")] ∧
        lookupA (Cache.new.add_file fsOne "a").2.file_ids "A" =
          some ⟨Cache.new.files.length, some 5⟩) :=
  ⟨rfl, add_file_always_fresh_handle fsOne Cache.new "a" "A" 5 "x" rfl rfl rfl⟩

/-- C2: on a Handle whose entry is at stage `Typechecked`, `typecheck`
does NOT return `Cached`: it hits the bare `panic!()` (the guard is the
strict `state > Typechecked`, so only `Transformed` short-circuits).
Shown at a concrete cache: the first `typecheck` succeeds with `Done`
and moves the entry to `Typechecked`; calling `typecheck` again right
after panics instead of returning `Cached`. -/
theorem typecheck_second_call_panics :
    (cacheParsed.typecheck extOk 0 0).1 = .ok .done ∧
      ((cacheParsed.typecheck extOk 0 0).2).entry_state 0 =
        some .typechecked ∧
      (((cacheParsed.typecheck extOk 0 0).2).typecheck extOk 0 0).1 =
        .panicked .typecheckUnreachableState ∧
      (cacheTypechecked.typecheck extOk 0 0).1 ≠ .ok .cached :=
  ⟨rfl, rfl, rfl, by decide⟩

/-- C3 counterexample: a first-encounter `resolve` DOES insert a Stage
Cache entry for the returned Handle: resolving "a" on a fresh cache
returns `FromFile` with Handle 0, and immediately afterwards Handle 0
has an entry at stage `Parsed` (inserted by resolve's internal `parse`),
not a missing entry. -/
theorem resolve_first_encounter_has_entry :
    (Cache.new.resolve fsOne extOk "a" none none).1 =
        .ok (.fromFile (.atom 0) "a", 0) ∧
      (Cache.new.resolve fsOne extOk "a" none none).2.entry_state 0 =
        some .parsed ∧
      (Cache.new.resolve fsOne extOk "a" none none).2.entry_state 0 ≠
        none :=
  ⟨rfl, rfl, by decide⟩

/-- C3 amended: a successful first-encounter `resolve` (normalized path
absent from the Name Index, fresh Handle) returns `FromFile` with the
parsed term and leaves the Handle with a Stage Cache entry at stage
`Parsed` — the entry reaches `Transformed` only when the caller commits
the transformed term via `insert`. -/
theorem resolve_first_encounter_parsed_entry (fs : FileSystem)
    (ext : Extern) (c : Cache) (path : String) (parent : Option String)
    (pos : Option RawSpan) (p : String) (ts : Nat) (content : String)
    (t : RichTerm)
    (hnorm : (with_parent fs path parent).2 = some p)
    (hmiss : c.id_of p = none)
    (hmod : fs.modified p = .ok ts)
    (hread : fs.readFile p = .ok content)
    (hfresh : lookupA c.terms c.files.length = none)
    (hparse : ext.parseFn c.files.length content = .ok t) :
    (c.resolve fs ext path parent pos).1 =
        .ok (.fromFile t path, c.files.length) ∧
      (c.resolve fs ext path parent pos).2.entry_state c.files.length =
        some .parsed := by
  have h1 : c.add_file_normalized fs p =
      (.ok c.files.length,
        { c with
          files := c.files ++ [(p, content)],
          file_ids := insertA c.file_ids p ⟨c.files.length, some ts⟩ }) := by
    simp [Cache.add_file_normalized, Cache.load_file, hmod, hread]
  have h2 : ({ c with
        files := c.files ++ [(p, content)],
        file_ids := insertA c.file_ids p ⟨c.files.length, some ts⟩ } :
          Cache).parse ext c.files.length =
      (.ok .done,
        { c with
          files := c.files ++ [(p, content)],
          file_ids := insertA c.file_ids p ⟨c.files.length, some ts⟩,
          terms := insertA c.terms c.files.length (t, EntryState.parsed) }) := by
    simp [Cache.parse, containsA, hfresh, hparse, List.getElem?_concat_length]
  have hpair : c.resolve fs ext path parent pos =
      (.ok (.fromFile t path, c.files.length),
        { c with
          files := c.files ++ [(p, content)],
          file_ids := insertA c.file_ids p ⟨c.files.length, some ts⟩,
          terms := insertA c.terms c.files.length (t, EntryState.parsed) }) := by
    simp [Cache.resolve, hnorm, hmiss, h1, h2, Cache.get_owned,
      lookupA_insertA_self]
  rw [hpair]
  exact ⟨rfl, by simp [Cache.entry_state, lookupA_insertA_self]⟩

/-- C3 amended, witness at the concrete one-file filesystem. -/
theorem resolve_first_encounter_parsed_entry_witness :
    (with_parent fsOne "a" none).2 = some "A" ∧
      ((Cache.new.resolve fsOne extOk "a" none none).1 =
          .ok (.fromFile (.atom 0) "a", Cache.new.files.length) ∧
        (Cache.new.resolve fsOne extOk "a" none none).2.entry_state
          Cache.new.files.length = some .parsed) :=
  ⟨rfl, resolve_first_encounter_parsed_entry fsOne extOk Cache.new "a" none
    none "A" 5 "x" (.atom 0) rfl rfl rfl rfl rfl rfl⟩

/-- C4: the resolver's `get` hands back the cached term exactly when the
entry's stage is `Transformed`; on an entry at any other stage it fails
the `debug_assert!` (modelled as the `panicked` outcome) instead of
silently returning the term. -/
theorem get_requires_transformed (c : Cache) (file_id : Nat) (t : RichTerm)
    (s : EntryState) (h : lookupA c.terms file_id = some (t, s)) :
    (c.get file_id = .found t ↔ s = .transformed) ∧
      (s ≠ .transformed → c.get file_id = .panicked) := by
  unfold Cache.get
  rw [h]
  by_cases hs : s = .transformed
  · subst hs
    simp
  · simp [hs]

/-- C4 witness: a `Parsed` entry makes `get` panic rather than return. -/
theorem get_requires_transformed_witness :
    lookupA cacheParsed.terms 0 = some (.atom 0, .parsed) ∧
      ((cacheParsed.get 0 = .found (.atom 0) ↔
          EntryState.parsed = .transformed) ∧
        (EntryState.parsed ≠ .transformed → cacheParsed.get 0 = .panicked)) :=
  ⟨rfl, get_requires_transformed cacheParsed 0 (.atom 0) .parsed rfl⟩

/-- C9: when canonicalization fails but the raw read succeeds,
`add_file` still loads the content and returns a fresh Handle, leaves
the Name Index untouched, and a lookup of the name that was previously
unbound still misses. -/
theorem add_file_unnormalizable_no_name_entry (fs : FileSystem) (c : Cache)
    (path content : String)
    (hnorm : fs.canonicalize path = none)
    (hread : fs.readFile path = .ok content) :
    (c.add_file fs path).1 = .ok c.files.length ∧
      (c.add_file fs path).2.files = c.files ++ [(path, content)] ∧
      (c.add_file fs path).2.file_ids = c.file_ids ∧
      (c.id_of path = none → (c.add_file fs path).2.id_of path = none) := by
  have hpair : c.add_file fs path =
      (.ok c.files.length, { c with files := c.files ++ [(path, content)] }) := by
    simp [Cache.add_file, normalize_path, hnorm, Cache.load_file, hread]
  rw [hpair]
  exact ⟨rfl, rfl, rfl, fun h => h⟩

/-- C9 witness: on a filesystem where canonicalization always fails but
"raw" is readable, adding "raw" to a fresh cache loads it with Handle 0
and `id_of` still misses. -/
theorem add_file_unnormalizable_no_name_entry_witness :
    fsRawOnly.canonicalize "raw" = none ∧ Cache.new.id_of "raw" = none ∧
      ((Cache.new.add_file fsRawOnly "raw").1 = .ok Cache.new.files.length ∧
        (Cache.new.add_file fsRawOnly "raw").2.files =
          Cache.new.files ++ [("raw", "y")] ∧
        (Cache.new.add_file fsRawOnly "raw").2.file_ids =
          Cache.new.file_ids ∧
        (Cache.new.id_of "raw" = none →
          (Cache.new.add_file fsRawOnly "raw").2.id_of "raw" = none)) :=
  ⟨rfl, rfl,
    add_file_unnormalizable_no_name_entry fsRawOnly Cache.new "raw" "y" rfl rfl⟩

/-- C10: on an entry at stage `Parsed` or `Typechecked`, if the external
transformation pass fails with an import error, `transform` returns that
error and the Handle is left with NO Stage Cache entry: the entry was
removed before the pass ran and is not restored. -/
theorem transform_import_error_drops_entry (c : Cache) (ext : Extern)
    (file_id : Nat) (t : RichTerm) (s : EntryState) (e : ImportError)
    (hentry : lookupA c.terms file_id = some (t, s))
    (hs : s ≠ .transformed)
    (hfail : ext.transformFn t = .error e) :
    (c.transform ext file_id).1 = .fail (.error e) ∧
      (c.transform ext file_id).2.entry_state file_id = none := by
  have he : c.entry_state file_id = some s := by
    simp [Cache.entry_state, hentry]
  cases s with
  | transformed => exact absurd rfl hs
  | parsed =>
      have hpair : c.transform ext file_id =
          (.fail (.error e), { c with terms := eraseA c.terms file_id }) := by
        simp [Cache.transform, he, hentry, hfail]
      rw [hpair]
      exact ⟨rfl, by simp [Cache.entry_state, lookupA_eraseA_self]⟩
  | typechecked =>
      have hpair : c.transform ext file_id =
          (.fail (.error e), { c with terms := eraseA c.terms file_id }) := by
        simp [Cache.transform, he, hentry, hfail]
      rw [hpair]
      exact ⟨rfl, by simp [Cache.entry_state, lookupA_eraseA_self]⟩

/-- C10 witness: concrete failing transform on a `Parsed` entry. -/
theorem transform_import_error_drops_entry_witness :
    lookupA cacheParsed.terms 0 = some (.atom 0, .parsed) ∧
      extBadTransform.transformFn (.atom 0) =
        .error (.ioError "lib" "no such file" none) ∧
      ((cacheParsed.transform extBadTransform 0).1 =
          .fail (.error (.ioError "lib" "no such file" none)) ∧
        (cacheParsed.transform extBadTransform 0).2.entry_state 0 = none) :=
  ⟨rfl, rfl,
    transform_import_error_drops_entry cacheParsed extBadTransform 0
      (.atom 0) .parsed (.ioError "lib" "no such file" none) rfl
      (by decide) rfl⟩

/-- C5 counterexample: the observed stage CAN move backward to "no
entry": one `transform` call whose external pass fails takes Handle 0
from `Parsed` to a missing Stage Cache entry. -/
theorem transform_failure_breaks_monotonicity :
    cacheParsed.entry_state 0 = some .parsed ∧
      (applyOp fsOne extBadTransform cacheParsed
        (.transformOp 0)).2.entry_state 0 = none :=
  ⟨rfl, rfl⟩

/-- C5 amended: over any sequence of parse / typecheck / transform /
transform_inner / prepare / resolve / insert calls in which every call
returns `Ok` (no error, no panic), every Handle's observed stage is
monotone non-decreasing, with a missing entry ranked strictly below
`Parsed < Typechecked < Transformed`; a failing transform or
transform_inner (also inside prepare) is excluded, since it removes the
entry. -/
theorem stage_monotone_of_allOk (fs : FileSystem) (ext : Extern)
    (ops : List OpCall) (c : Cache)
    (hok : allOk fs ext c ops = true) (h : Nat) :
    stageRank (c.entry_state h) ≤
      stageRank ((runOps fs ext c ops).entry_state h) := by
  induction ops generalizing c with
  | nil => simp [runOps]
  | cons op rest ih =>
      rw [allOk] at hok
      simp only [Bool.and_eq_true, decide_eq_true_eq] at hok
      obtain ⟨h1, h2⟩ := hok
      have step := applyOp_ok_stageLe fs ext c op h1 h
      have tail := ih _ h2
      rw [show runOps fs ext c (op :: rest) =
        runOps fs ext (applyOp fs ext c op).2 rest from rfl]
      exact le_trans step tail

/-- C5 amended, witness: a five-operation all-successful pipeline on the
one-source cache is stage-monotone at Handle 0. -/
theorem stage_monotone_of_allOk_witness :
    allOk fsOne extOk cacheStr
        [.parseOp 0, .typecheckOp 0 0, .transformOp 0, .prepareOp 0 0,
          .insertOp 0 (.atom 9)] = true ∧
      stageRank (cacheStr.entry_state 0) ≤
        stageRank ((runOps fsOne extOk cacheStr
          [.parseOp 0, .typecheckOp 0 0, .transformOp 0, .prepareOp 0 0,
            .insertOp 0 (.atom 9)]).entry_state 0) :=
  ⟨by decide,
    stage_monotone_of_allOk fsOne extOk
      [.parseOp 0, .typecheckOp 0 0, .transformOp 0, .prepareOp 0 0,
        .insertOp 0 (.atom 9)] cacheStr (by decide) 0⟩

/-- C6: when the normalized import identity already has a Name Index
entry, `resolve` returns `FromCache` with the existing Handle and the
cache is left completely unchanged — no load, no parse, no dependency on
the Handle's stage (no hypothesis constrains it). -/
theorem resolve_name_index_hit_from_cache (c : Cache) (fs : FileSystem)
    (ext : Extern) (path p : String) (parent : Option String)
    (pos : Option RawSpan) (id : Nat)
    (hnorm : (with_parent fs path parent).2 = some p)
    (hid : c.id_of p = some id) :
    c.resolve fs ext path parent pos = (.ok (.fromCache, id), c) := by
  simp [Cache.resolve, hnorm, hid]

/-- C6 witness: resolving the same import a second time returns
`FromCache` with the Handle minted by the first resolution, leaving the
cache unchanged. -/
theorem resolve_name_index_hit_from_cache_witness :
    (with_parent fsOne "a" none).2 = some "A" ∧
      ((Cache.new.resolve fsOne extOk "a" none none).2).id_of "A" =
        some 0 ∧
      ((Cache.new.resolve fsOne extOk "a" none none).2).resolve fsOne extOk
          "a" none none =
        (.ok (.fromCache, 0), (Cache.new.resolve fsOne extOk "a" none none).2) :=
  ⟨rfl, rfl,
    resolve_name_index_hit_from_cache
      (Cache.new.resolve fsOne extOk "a" none none).2 fsOne extOk "a" "A"
      none none 0 rfl rfl⟩

/-- C7: a successful `prepare` returns `Cached` exactly when the entry
was already at stage `Transformed` before the call; in every other
successful case at least one stage performed work and the result is
`Done`. -/
theorem prepare_cached_iff_transformed (c : Cache) (ext : Extern)
    (id : Nat) (env : Environment) (op : CacheOp)
    (h : (c.prepare ext id env).1 = .ok op) :
    (op = .cached ↔ c.entry_state id = some .transformed) := by
  obtain ⟨r₁, r₂, r₃, c₁, c₂, c₃, hp, ht, htr, _, hiff⟩ :=
    prepare_ok_chain c ext id env op h
  constructor
  · intro hop
    obtain ⟨e₁, e₂, e₃⟩ := hiff.mp hop
    rcases parse_ok_cases c ext id r₁ (by rw [hp]) with ⟨_, _, heq⟩ |
      ⟨hdone, _, _⟩
    · have hc1 : c₁ = c := (Prod.ext_iff.mp (hp.symm.trans heq)).2
      subst hc1
      rcases typecheck_ok_cases c₁ ext id env r₂ (by rw [ht]) with
        ⟨_, ⟨t, hlk⟩, _⟩ | ⟨hdone₂, _⟩
      · simp [Cache.entry_state, hlk]
      · rw [hdone₂] at e₂
        exact absurd e₂ (by decide)
    · rw [hdone] at e₁
      exact absurd e₁ (by decide)
  · intro htrans
    obtain ⟨t, hlk⟩ : ∃ t, lookupA c.terms id = some (t, .transformed) := by
      rcases hx : lookupA c.terms id with _ | ⟨t, s⟩
      · rw [Cache.entry_state, hx] at htrans
        simp at htrans
      · rw [Cache.entry_state, hx] at htrans
        simp at htrans
        exact ⟨t, by rw [htrans]⟩
    apply hiff.mpr
    have hcc : containsA c.terms id = true := by simp [containsA, hlk]
    obtain ⟨hr₁, hc1⟩ : r₁ = .cached ∧ c₁ = c := by
      rcases parse_ok_cases c ext id r₁ (by rw [hp]) with ⟨ha, _, heq⟩ |
        ⟨_, hcf, _⟩
      · exact ⟨ha, (Prod.ext_iff.mp (hp.symm.trans heq)).2⟩
      · rw [hcc] at hcf
        exact absurd hcf (by decide)
    subst hc1
    obtain ⟨hr₂, hc2⟩ : r₂ = .cached ∧ c₂ = c₁ := by
      rcases typecheck_ok_cases c₁ ext id env r₂ (by rw [ht]) with
        ⟨ha, _, heq⟩ | ⟨_, t₀, hlk₀, _, _⟩
      · exact ⟨ha, (Prod.ext_iff.mp (ht.symm.trans heq)).2⟩
      · rw [hlk] at hlk₀
        injection hlk₀ with h1
        injection h1 with h2 h3
        exact absurd h3 (by decide)
    subst hc2
    obtain hr₃ : r₃ = .cached := by
      rcases transform_ok_cases c₂ ext id r₃ (by rw [htr]) with
        ⟨ha, _, _⟩ | ⟨_, t₀, s₀, t₁, hlk₀, hs₀, _, _⟩
      · exact ha
      · rw [hlk] at hlk₀
        injection hlk₀ with h1
        injection h1 with h2 h3
        exact absurd h3.symm hs₀
    exact ⟨hr₁, hr₂, hr₃⟩

/-- C7 witness: preparing the never-parsed string source succeeds with
`Done`, and indeed its prior stage was not `Transformed`. -/
theorem prepare_cached_iff_transformed_witness :
    (cacheStr.prepare extOk 0 0).1 = .ok .done ∧
      (CacheOp.done = .cached ↔ cacheStr.entry_state 0 = some .transformed) :=
  ⟨rfl, prepare_cached_iff_transformed cacheStr extOk 0 0 .done rfl⟩

/-- C8: the `NotParsed` condition is unreachable inside `prepare` — its
two `expect_err` panic sites can never fire, for any cache, oracle, id
and environment — while a direct `typecheck` reports `NotParsed` exactly
when the entry is missing from the term cache, and a direct `transform`
exactly when `entry_state` is `None`. -/
theorem prepare_never_hits_notParsed (c : Cache) (ext : Extern) (id : Nat)
    (env : Environment) :
    (c.prepare ext id env).1 ≠ .panicked .prepareTypecheckNotParsed ∧
      (c.prepare ext id env).1 ≠ .panicked .prepareTransformNotParsed ∧
      ((c.typecheck ext id env).1 = .fail .notParsed ↔
        containsA c.terms id = false) ∧
      ((c.transform ext id).1 = .fail .notParsed ↔
        c.entry_state id = none) := by
  have key : ∀ m, (c.prepare ext id env).1 = .panicked m →
      m ≠ .prepareTypecheckNotParsed ∧ m ≠ .prepareTransformNotParsed := by
    intro m hm
    rcases hp : c.parse ext id with ⟨rp, c₁⟩
    rcases rp with r₁ | e | mp
    case mk.fail =>
      rw [show c.prepare ext id env = (.fail (.parseError e), c₁) from by
        simp [Cache.prepare, hp]] at hm
      simp at hm
    case mk.panicked =>
      have hmp : mp = .filesSourceUnknownId :=
        parse_panic_cases c ext id mp (by rw [hp])
      rw [show c.prepare ext id env = (.panicked mp, c₁) from by
        simp [Cache.prepare, hp]] at hm
      simp at hm
      subst hm
      rw [hmp]
      exact ⟨by decide, by decide⟩
    case mk.ok =>
      rcases ht : c₁.typecheck ext id env with ⟨rt, c₂⟩
      rcases rt with r₂ | fe | mt
      case mk.fail =>
        rcases fe with e | _
        · rw [show c.prepare ext id env = (.fail (.typecheckError e), c₂)
            from by simp [Cache.prepare, hp, ht]] at hm
          simp at hm
        · exfalso
          have h1 := parse_ok_contains c ext id r₁ (by rw [hp])
          rw [hp] at h1
          simp at h1
          have h2 := (typecheck_notParsed_iff c₁ ext id env).mp (by rw [ht])
          rw [h1] at h2
          exact absurd h2 (by decide)
      case mk.panicked =>
        have hmt : mt = .typecheckUnreachableState :=
          typecheck_panic_cases c₁ ext id env mt (by rw [ht])
        rw [show c.prepare ext id env = (.panicked mt, c₂) from by
          simp [Cache.prepare, hp, ht]] at hm
        simp at hm
        subst hm
        rw [hmt]
        exact ⟨by decide, by decide⟩
      case mk.ok =>
        rcases htr : c₂.transform ext id with ⟨rr, c₃⟩
        rcases rr with r₃ | fe | mtr
        case mk.fail =>
          rcases fe with e | _
          · rw [show c.prepare ext id env = (.fail (.importError e), c₃)
              from by simp [Cache.prepare, hp, ht, htr]] at hm
            simp at hm
          · exfalso
            have h1 := typecheck_ok_entry c₁ ext id env r₂ (by rw [ht])
            rw [ht] at h1
            simp at h1
            have h2 := (transform_notParsed_iff c₂ ext id).mp (by rw [htr])
            exact h1 h2
        case mk.panicked =>
          have hmtr : mtr = .termsGetUnwrap :=
            transform_panic_cases c₂ ext id mtr (by rw [htr])
          rw [show c.prepare ext id env = (.panicked mtr, c₃) from by
            simp [Cache.prepare, hp, ht, htr]] at hm
          simp at hm
          subst hm
          rw [hmtr]
          exact ⟨by decide, by decide⟩
        case mk.ok =>
          rw [show c.prepare ext id env =
              (.ok (if r₁ = .done ∨ r₂ = .done ∨ r₃ = .done
                then .done else .cached), c₃) from by
            simp [Cache.prepare, hp, ht, htr]] at hm
          simp at hm
  exact ⟨fun hx => (key _ hx).1 rfl, fun hx => (key _ hx).2 rfl,
    typecheck_notParsed_iff c ext id env, transform_notParsed_iff c ext id⟩

/-- C8 witness: instantiation at the concrete string-source cache. -/
theorem prepare_never_hits_notParsed_witness :
    (cacheStr.prepare extOk 0 0).1 ≠ .panicked .prepareTypecheckNotParsed ∧
      (cacheStr.prepare extOk 0 0).1 ≠ .panicked .prepareTransformNotParsed ∧
      ((cacheStr.typecheck extOk 0 0).1 = .fail .notParsed ↔
        containsA cacheStr.terms 0 = false) ∧
      ((cacheStr.transform extOk 0).1 = .fail .notParsed ↔
        cacheStr.entry_state 0 = none) :=
  prepare_never_hits_notParsed cacheStr extOk 0 0

end Nickel
